import Mathlib

/-!
Shallow embedding of the discrete-factor core of `pgmpy/factors/Factor.py`
(the `Factor` class and the module-level `_bivar_factor_operation`,
`factor_product`, `factor_divide` helpers), together with theorems settling
the specified properties of that core.

Modelling conventions:
* numpy double buffers are idealized as lists of rationals (`List ℚ`);
* the module-level `np.seterr(divide='raise')` makes a float division with a
  zero denominator and a nonzero numerator raise `FloatingPointError`
  (which the division loop catches and turns into `0`), while `0.0 / 0.0`
  is an *invalid* operation, not a *divide* error, so it is **not** raised
  and silently produces IEEE NaN; a NaN cell is modelled as `none` in a
  division result buffer (`List (Option ℚ)`);
* a raised Python exception is modelled as an `Except.error` carrying the
  exception message, and — for the mutating loops of `marginalize` and
  `reduce` — also the receiver's field state at the moment of the raise,
  making the in-place mutation order observable;
* the in-place / copy duality (`inplace` flag) is modelled by a `CallOut`
  record giving the receiver's state after the call, the returned value
  (Python returns `None` in in-place mode) and the raised error, if any.
-/

set_option maxRecDepth 10000

deriving instance DecidableEq for Except

namespace PgmpyFactor

/-- A discrete factor: ordered scope (`self.variables`' keys), parallel
cardinalities (`self.cardinality`) and the flat value buffer
(`self.values`).  The Python object stores, per variable, the list of
state labels `var + '_' + str(i)`; those are derivable from the
cardinality and are rebuilt on demand here. -/
structure Factor where
  vars : List String
  cardinality : List Nat
  values : List ℚ
deriving Repr, DecidableEq

/-- A division result: same shape as `Factor` but a cell can be the IEEE
NaN produced by an uncaught `0.0 / 0.0`, modelled as `none`. -/
structure DFactor where
  vars : List String
  cardinality : List Nat
  values : List (Option ℚ)
deriving Repr, DecidableEq

/-- The decoding loop of `Factor.assignment`:
`for card in self.cardinality[::-1]: assign.insert(0, ind % card); ind = ind / card`.
The head cardinality is processed last, so the recursion first consumes the
tail (the reversed traversal), then prepends the head digit.  Returns the
digit list together with the final value of `ind`. -/
def decodeLoop : List Nat → Nat → List Nat × Nat
  | [], i => ([], i)
  | c :: cs, i =>
    let r := decodeLoop cs i
    (r.2 % c :: r.1, r.2 / c)

/-- Re-encoding of a digit vector under the factor's mixed-radix
convention (last variable in scope order is the fastest-varying digit):
each digit is weighted by the product of the cardinalities after it. -/
def encodeDigits : List Nat → List Nat → Nat
  | _ :: cs, d :: ds => d * cs.prod + encodeDigits cs ds
  | _, _ => 0

/-- `Factor.assignment(index)` for a single index: checks
`index <= prod(cardinality) - 1` (raising `IndexError` otherwise), decodes
the flat index and renders the per-variable state labels
`variable + '_' + str(digit)`. -/
def Factor.assignment (φ : Factor) (i : Nat) : Except String (List String) :=
  if i < φ.cardinality.prod then
    .ok (List.zipWith (fun v d => v ++ "_" ++ toString d)
          φ.vars (decodeLoop φ.cardinality i).1)
  else
    .error "Index greater than max possible index"

lemma decodeLoop_snd (card : List Nat) (i : Nat) :
    (decodeLoop card i).2 = i / card.prod := by
  induction card generalizing i with
  | nil => simp [decodeLoop]
  | cons c cs ih =>
    simp only [decodeLoop, ih, List.prod_cons]
    rw [Nat.div_div_eq_div_mul, Nat.mul_comm]

lemma encode_decode (card : List Nat) (i : Nat) :
    encodeDigits card (decodeLoop card i).1 = i % card.prod := by
  induction card generalizing i with
  | nil => simp [decodeLoop, encodeDigits, Nat.mod_one]
  | cons c cs ih =>
    simp only [decodeLoop, encodeDigits, ih, decodeLoop_snd, List.prod_cons]
    rw [Nat.mul_comm c cs.prod, Nat.mod_mul]
    ring

/-- `Factor.scope()`: the list of scope variables in order. -/
def Factor.scope (φ : Factor) : List String :=
  φ.vars

/-- The recurring stride expression
`np.product(cardinality) / np.concatenate(([1], np.cumprod(cardinality)))`
evaluated at position `i`: the total size divided by the product of the
first `i` cardinalities. -/
def cumCard (card : List Nat) (i : Nat) : Nat :=
  card.prod / (card.take i).prod

/-- The gather-index list
`[j for i in range(0, num_elements, step) for j in range(i, i + inner)]`
shared by `_marginalize_single_variable` and `reduce`. -/
def sumIndexList (numElements step inner : Nat) : List Nat :=
  (List.range (numElements / step)).flatMap
    (fun b => (List.range inner).map (fun j => b * step + j))

/-- `Factor._marginalize_single_variable`: folds the axis of the variable
at position `idx` by accumulating, for each of its states `s`, the gathered
block `values[sum_index + s * inner]`.  (`np.zeros` accumulation expressed
as a per-slot sum over the states.) -/
def margSingle (card : List Nat) (vals : List ℚ) (idx : Nat) : List ℚ :=
  let numElements := card.prod
  let step := cumCard card idx
  let inner := cumCard card (idx + 1)
  (sumIndexList numElements step inner).map
    (fun t => (List.range (card.getD idx 0)).foldl
      (fun acc s => acc + vals.getD (t + s * inner) 0) 0)

/-- One iteration of the elimination loop of `Factor.marginalize`: compute
the folded buffer from the current fields, then delete the variable and
its cardinality entry. -/
def margStep (f : Factor) (v : String) : Factor :=
  let idx := f.vars.indexOf v
  { vars := f.vars.erase v,
    cardinality := f.cardinality.eraseIdx idx,
    values := margSingle f.cardinality f.values idx }

/-- `Factor.marginalize(variables)` core: first the validation loop
(`ScopeError` on the first variable absent from scope, raised before any
mutation), then the left-to-right elimination loop.  An error carries the
receiver's state at the moment of the raise (here always the untouched
receiver, since validation precedes mutation). -/
def Factor.marginalize (φ : Factor) (variablesArg : List String) :
    Except (String × Factor) Factor :=
  match variablesArg.find? (fun v => !(φ.vars.contains v)) with
  | some v => .error (v ++ " not in scope", φ)
  | none => .ok (variablesArg.foldl margStep φ)

/-- The value-slicing of one `reduce` iteration: the gathered block
`values[index_arr + value_index * inner]` for the variable at position
`idx` fixed to state `stateIdx`. -/
def reduceSingle (card : List Nat) (vals : List ℚ) (idx stateIdx : Nat) : List ℚ :=
  let numElements := card.prod
  let step := cumCard card idx
  let inner := cumCard card (idx + 1)
  (sumIndexList numElements step inner).map
    (fun t => vals.getD (t + stateIdx * inner) 0)

/-- Python `value.split('_')` on the character list of a token: splits at
every underscore. -/
def splitUnderscore : List Char → List (List Char)
  | [] => [[]]
  | c :: rest =>
    let ps := splitUnderscore rest
    if c = '_' then [] :: ps else (c :: ps.headD []) :: ps.tail

/-- Python `int(s)` restricted to the nonnegative decimal literals that
occur in reduction tokens; anything else raises (`ValueError`). -/
def parseNatDigits (cs : List Char) : Option Nat :=
  if cs ≠ [] ∧ cs.all (fun c => c.isDigit) then
    some (cs.foldl (fun n c => n * 10 + (c.toNat - 48)) 0)
  else none

/-- One iteration of the token loop of `Factor.reduce`: malformed-token
check (`TypeError`), `var, value_index = value.split('_')` unpacking,
scope check (`ScopeError`), state-bound check (`SizeError`), then the
slice and the deletion of the variable and its cardinality entry. -/
def reduceStep (f : Factor) (token : String) : Except String Factor :=
  if !(token.toList.contains '_') then
    .error "Values should be in the form of variablename_index"
  else
    match splitUnderscore token.toList with
    | [varCs, idxCs] =>
      let var := String.mk varCs
      if !(f.vars.contains var) then
        .error (var ++ " not in scope")
      else
        match parseNatDigits idxCs with
        | none => .error "invalid literal for int()"
        | some stateIdx =>
          let idx := f.vars.indexOf var
          if !(stateIdx < f.cardinality.getD idx 0 : Bool) then
            .error "Value is greater than max possible value"
          else
            .ok { vars := f.vars.erase var,
                  cardinality := f.cardinality.eraseIdx idx,
                  values := reduceSingle f.cardinality f.values idx stateIdx }
    | _ => .error "too many values to unpack"

/-- `Factor.reduce(values)` core: the token loop validates and applies one
token at a time; an error carries the receiver's state at the moment of
the raise, which retains the effect of the earlier, already applied
reductions. -/
def Factor.reduce (φ : Factor) (tokens : List String) :
    Except (String × Factor) Factor :=
  tokens.foldl
    (fun acc token =>
      match acc with
      | .error e => .error e
      | .ok f =>
        match reduceStep f token with
        | .error msg => .error (msg, f)
        | .ok f2 => .ok f2)
    (.ok φ)

/-- `Factor.normalize`: divides every value by the total sum.  (The
zero-sum case, where numpy raises or produces NaN, is outside every
specified property; rational division by zero yields `0` here.) -/
def Factor.normalize (φ : Factor) : Factor :=
  { φ with values := φ.values.map (fun x => x / φ.values.sum) }

/-- Observable outcome of calling an axis operation on a receiver:
the receiver's field state after the call, the returned value (`none`
both for the in-place mode, where Python returns `None`, and when an
exception was raised) and the raised exception message, if any. -/
structure CallOut where
  receiver : Factor
  ret : Option Factor
  err : Option String
deriving Repr, DecidableEq

/-- `marginalize(variables, inplace)` as a call on a receiver: the copy
mode works on the fresh `Factor(self.scope(), self.cardinality,
self.values)` (the constructor's `np.array` copies both buffers) and
leaves the receiver untouched; the in-place mode makes the receiver the
mutated factor. -/
def marginalizeCall (φ : Factor) (variablesArg : List String) (inplace : Bool) :
    CallOut :=
  match φ.marginalize variablesArg with
  | .ok ψ => if inplace then ⟨ψ, none, none⟩ else ⟨φ, some ψ, none⟩
  | .error (m, st) => if inplace then ⟨st, none, some m⟩ else ⟨φ, none, some m⟩

/-- `reduce(values, inplace)` as a call on a receiver; in the in-place
error case the receiver keeps the partially reduced state carried by the
error. -/
def reduceCall (φ : Factor) (tokens : List String) (inplace : Bool) : CallOut :=
  match φ.reduce tokens with
  | .ok ψ => if inplace then ⟨ψ, none, none⟩ else ⟨φ, some ψ, none⟩
  | .error (m, st) => if inplace then ⟨st, none, some m⟩ else ⟨φ, none, some m⟩

/-- `normalize(inplace)` as a call on a receiver. -/
def normalizeCall (φ : Factor) (inplace : Bool) : CallOut :=
  if inplace then ⟨φ.normalize, none, none⟩ else ⟨φ, some φ.normalize, none⟩

/-- The running example factor of the spec's concrete scenarios:
`Factor(['x1', 'x2', 'x3'], [2, 3, 2], range(12))`. -/
def phiB : Factor :=
  ⟨["x1", "x2", "x3"], [2, 3, 2], [0, 1, 2, 3, 4, 5, 6, 7, 8, 9, 10, 11]⟩

/-- `Factor.get_cardinality(variable)` without its scope guard (inside the
combiner it is only called on variables known to be in scope). -/
def Factor.get_cardinality (φ : Factor) (v : String) : Nat :=
  φ.cardinality.getD (φ.vars.indexOf v) 0

/-- The per-factor stride vector
`np.delete(np.concatenate((np.array([1]), np.cumprod(cardinality[::-1])))[::-1], 0)`:
position `k` holds the product of the cardinalities after position `k`
(the last variable is the fastest-varying digit). -/
def strideList : List Nat → List Nat
  | [] => []
  | _ :: cs => cs.prod :: strideList cs

/-- `itertools.product(*[range(card) for card in cardinality])`: all joint
digit tuples of the union scope, the last coordinate varying fastest. -/
def indexTuples : List Nat → List (List Nat)
  | [] => [[]]
  | c :: cs => (List.range c).flatMap (fun d => (indexTuples cs).map (d :: ·))

/-- `np.sum(index[phi_indexes] * phi_cumprod)`: gather the digits of one
factor's variables out of the joint tuple and weight them with that
factor's strides. -/
def gatherDot (tuple idxs strides : List Nat) : Nat :=
  (List.zipWith (fun i s => tuple.getD i 0 * s) idxs strides).sum

/-- The union scope built by `_bivar_factor_operation`: `phi1`'s variables
followed by `phi2`'s variables not in the common list, in `phi2`'s order. -/
def unionVars (φ1 φ2 : Factor) : List String :=
  φ1.vars ++ φ2.vars.filter
    (fun v => !((φ1.vars.filter (fun w => φ2.vars.contains w)).contains v))

/-- The union cardinalities built by `_bivar_factor_operation`. -/
def unionCard (φ1 φ2 : Factor) : List Nat :=
  φ1.cardinality ++ (φ2.vars.filter
    (fun v => !((φ1.vars.filter (fun w => φ2.vars.contains w)).contains v))).map
      φ2.get_cardinality

/-- The per-cell numerator/denominator combination of the division loop
under `np.seterr(divide='raise')`: a zero denominator with a nonzero
numerator raises `FloatingPointError`, which the loop catches and turns
into the cell value `0`; `0.0 / 0.0` is an *invalid* operation, not a
*divide* error, so no exception is raised and the cell silently becomes
IEEE NaN (modelled `none`). -/
def divCell (n d : ℚ) : Option ℚ :=
  if d = 0 then (if n = 0 then none else some 0) else some (n / d)

/-- `_bivar_factor_operation(phi1, phi2, operation='M')`: the aligned
per-cell multiplication over the union scope when the scopes share a
variable, the direct outer product
(`values = np.concatenate((values, value * phi2.values))` per `phi1` cell)
when they are disjoint. -/
def bivar_factor_operation_M (φ1 φ2 : Factor) : Factor :=
  if φ1.vars.filter (fun w => φ2.vars.contains w) = [] then
    ⟨φ1.vars ++ φ2.vars, φ1.cardinality ++ φ2.cardinality,
     φ1.values.flatMap (fun a => φ2.values.map (fun b => a * b))⟩
  else
    ⟨unionVars φ1 φ2, unionCard φ1 φ2,
     (indexTuples (unionCard φ1 φ2)).map (fun t =>
       φ1.values.getD
           (gatherDot t (List.range φ1.vars.length) (strideList φ1.cardinality)) 0 *
       φ2.values.getD
           (gatherDot t (φ2.vars.map ((unionVars φ1 φ2).indexOf ·))
             (strideList φ2.cardinality)) 0)⟩

/-- `_bivar_factor_operation(phi1, phi2, operation='D')`: the aligned
per-cell division (with the caught-zero-denominator policy and the
uncaught `0/0` NaN) when the scopes share a variable; a `ValueError` when
they are disjoint. -/
def bivar_factor_operation_D (φ1 φ2 : Factor) : Except String DFactor :=
  if φ1.vars.filter (fun w => φ2.vars.contains w) = [] then
    .error "factors Division not defined for factors with no common scope"
  else
    .ok ⟨unionVars φ1 φ2, unionCard φ1 φ2,
     (indexTuples (unionCard φ1 φ2)).map (fun t =>
       divCell
         (φ1.values.getD
           (gatherDot t (List.range φ1.vars.length) (strideList φ1.cardinality)) 0)
         (φ2.values.getD
           (gatherDot t (φ2.vars.map ((unionVars φ1 φ2).indexOf ·))
             (strideList φ2.cardinality)) 0))⟩

/-- `factor_product(*args)`: `functools.reduce` of the pairwise combiner
over the argument list, seeded with the first factor. -/
def factor_product (first : Factor) (rest : List Factor) : Factor :=
  rest.foldl bivar_factor_operation_M first

/-- `Factor.product(*factors)` for one argument factor. -/
def Factor.product (φ1 φ2 : Factor) : Factor :=
  factor_product φ1 [φ2]

/-- `factor_divide(phi1, phi2)`. -/
def factor_divide (φ1 φ2 : Factor) : Except String DFactor :=
  bivar_factor_operation_D φ1 φ2

/-- `Factor.divide(factor)`. -/
def Factor.divide (φ1 φ2 : Factor) : Except String DFactor :=
  factor_divide φ1 φ2

/-- The divisor of the spec's concrete scenario A:
`Factor(['x3', 'x1'], [2, 2], [1, 2, 3, 4])`. -/
def phi2A : Factor :=
  ⟨["x3", "x1"], [2, 2], [1, 2, 3, 4]⟩

/-- Numerator factor exercising the zero-denominator cells of division:
states hit `0/0`, `1/0` and `5/2`. -/
def phiNum : Factor :=
  ⟨["x1"], [3], [0, 1, 5]⟩

/-- Denominator factor with two zero cells. -/
def phiDen : Factor :=
  ⟨["x1"], [3], [0, 0, 2]⟩

/-- Claim C1: the claim states that every zero-denominator cell of a
division yields exactly `0`, including cells whose numerator is also
zero.  Evaluating the embedded division at a factor pair with a common
variable shows what the code actually does: the `1/0` cell is caught
(`FloatingPointError` under `np.seterr(divide='raise')`) and becomes `0`,
but the `0/0` cell is a numpy *invalid* operation, is never raised, and
silently becomes NaN (`none`) instead of the documented `0`. -/
theorem divide_zero_denominator_cells :
    phiNum.divide phiDen = .ok ⟨["x1"], [3], [none, some 0, some (5/2)]⟩ := by
  with_unfolding_all rfl

/-- Claim C2 (counterexample): at the spec's concrete scenario A input,
the flat cell of index 1 of `φ1.divide(φ2)` is `1/3`
(`φ1(x1=0,x2=0,x3=1) = 1` divided by `φ2(x3=1,x1=0) = 3`), not the `0.5`
the claimed vector puts there, so the claimed 12-value vector is not the
code's output. -/
theorem scenarioA_claimed_vector_refuted :
    (phiB.divide phi2A).map (fun d => d.values.getD 1 none) = .ok (some (1/3)) ∧
    (1 : ℚ)/3 ≠ 1/2 := by
  constructor
  · with_unfolding_all rfl
  · norm_num

/-- Claim C2 (amended): `φ1.divide(φ2)` on scenario A returns the factor
over scope `(x1,x2,x3)` with cardinalities `(2,3,2)` whose flat buffer, in
that scope's mixed-radix order, is
`[0, 1/3, 2, 1, 4, 5/3, 3, 7/4, 4, 9/4, 5, 11/4]` — each cell is
`φ1(x1,x2,x3) / φ2(x3,x1)` with the two factors aligned on their shared
variables. -/
theorem scenarioA_divide_result :
    phiB.divide phi2A =
      .ok ⟨["x1", "x2", "x3"], [2, 3, 2],
        [some 0, some (1/3), some 2, some 1, some 4, some (5/3),
         some 3, some (7/4), some 4, some (9/4), some 5, some (11/4)]⟩ := by
  with_unfolding_all rfl

/-- Dividend for the product/divide cancellation law. -/
def f1C : Factor :=
  ⟨["x1"], [2], [1, 2]⟩

/-- Divisor with a zero cell for the product/divide cancellation law. -/
def f2C : Factor :=
  ⟨["x1"], [2], [1, 0]⟩

/-- Claim C3: the claim states `(f1.product(f2)).divide(f2)` equals `f1`
where `f2 ≠ 0` and equals `0` where `f2 = 0`.  Evaluating the embedding at
a concrete pair shows the first part holds (cell `x1_0` recovers `f1`'s
value `1`) but at the zero cell of `f2` the numerator `f1·0 = 0` meets the
denominator `0`, and the uncaught `0/0` produces NaN (`none`), not `0`. -/
theorem product_divide_cancellation_eval :
    (f1C.product f2C).divide f2C = .ok ⟨["x1"], [2], [some 1, none]⟩ := by
  with_unfolding_all rfl

/-- Claim C4: for every factor and every flat index `i` below
`product(cardinality)`, `assignment(i)` succeeds, decoding `i` with the
last scope variable as the fastest-varying digit, and re-encoding the
decoded digit vector under the same convention yields `i` again. -/
theorem assignment_roundtrip (φ : Factor) (i : Nat)
    (h : i < φ.cardinality.prod) :
    encodeDigits φ.cardinality (decodeLoop φ.cardinality i).1 = i ∧
    φ.assignment i = .ok (List.zipWith (fun v d => v ++ "_" ++ toString d)
      φ.vars (decodeLoop φ.cardinality i).1) := by
  constructor
  · rw [encode_decode, Nat.mod_eq_of_lt h]
  · simp [Factor.assignment, h]

/-- Witness for C4 at the scenario factor and flat index 7. -/
theorem assignment_roundtrip_witness :
    7 < phiB.cardinality.prod ∧
    (encodeDigits phiB.cardinality (decodeLoop phiB.cardinality 7).1 = 7 ∧
     phiB.assignment 7 = .ok (List.zipWith (fun v d => v ++ "_" ++ toString d)
       phiB.vars (decodeLoop phiB.cardinality 7).1)) :=
  ⟨by decide, assignment_roundtrip phiB 7 (by decide)⟩

/-- Claim C5: on the factor over `(x1,x2,x3)` with cardinalities `(2,3,2)`
and values `0..11`, `marginalize(['x1','x3'])` eliminates `x1` then `x3`
and leaves the factor over scope `(x2)` with cardinality `[3]` and values
`[14, 22, 30]`. -/
theorem scenarioB_marginalize :
    phiB.marginalize ["x1", "x3"] = .ok ⟨["x2"], [3], [14, 22, 30]⟩ := by
  with_unfolding_all rfl

/-- Indexing form of the direct outer product: slot `i * |l2| + j` of the
concatenated per-cell blocks is the product of cell `i` of `l1` and cell
`j` of `l2`. -/
lemma flatMap_mul_getD (l1 l2 : List ℚ) (i j : Nat)
    (hi : i < l1.length) (hj : j < l2.length) :
    (l1.flatMap (fun a => l2.map (fun b => a * b))).getD (i * l2.length + j) 0
      = l1.getD i 0 * l2.getD j 0 := by
  induction l1 generalizing i with
  | nil => exact absurd hi (by simp)
  | cons a l ih =>
    cases i with
    | zero =>
      rw [List.flatMap_cons, Nat.zero_mul, Nat.zero_add,
        List.getD_append _ _ _ _ (by simpa using hj)]
      simp [List.getD_eq_getElem?_getD, List.getElem?_eq_getElem hj]
    | succ i =>
      have hlen : (l2.map (fun b => a * b)).length ≤ (i + 1) * l2.length + j := by
        rw [List.length_map]
        calc l2.length ≤ (i + 1) * l2.length :=
              Nat.le_mul_of_pos_left l2.length (Nat.succ_pos i)
          _ ≤ (i + 1) * l2.length + j := Nat.le_add_right _ _
      rw [List.flatMap_cons, List.getD_append_right _ _ _ _ hlen]
      have harith : (i + 1) * l2.length + j - (l2.map (fun b => a * b)).length
          = i * l2.length + j := by
        rw [List.length_map, Nat.succ_mul]
        omega
      rw [harith, ih i (by simpa using hi)]
      simp

/-- Claim C6: for factors with disjoint scopes, `divide` raises the
undefined-operation `ValueError` and never returns a factor, while
`product` returns the direct outer product over the concatenated scope:
the result's scope and cardinalities are the concatenations, and the cell
at flat index `i * |φ2.values| + j` is `φ1.values[i] * φ2.values[j]`. -/
theorem disjoint_divide_product (φ1 φ2 : Factor)
    (h : ∀ v ∈ φ1.vars, v ∉ φ2.vars) :
    φ1.divide φ2 =
      .error "factors Division not defined for factors with no common scope" ∧
    (φ1.product φ2).vars = φ1.vars ++ φ2.vars ∧
    (φ1.product φ2).cardinality = φ1.cardinality ++ φ2.cardinality ∧
    ∀ i j, i < φ1.values.length → j < φ2.values.length →
      (φ1.product φ2).values.getD (i * φ2.values.length + j) 0
        = φ1.values.getD i 0 * φ2.values.getD j 0 := by
  have hfilter : φ1.vars.filter (fun w => φ2.vars.contains w) = [] := by
    rw [List.filter_eq_nil_iff]
    intro a ha
    simpa [List.contains, List.elem_eq_mem] using h a ha
  refine ⟨?_, ?_, ?_, ?_⟩
  · simp only [Factor.divide, factor_divide, bivar_factor_operation_D, hfilter,
      if_pos]
  · simp only [Factor.product, factor_product, List.foldl_cons, List.foldl_nil,
      bivar_factor_operation_M, hfilter, if_pos]
  · simp only [Factor.product, factor_product, List.foldl_cons, List.foldl_nil,
      bivar_factor_operation_M, hfilter, if_pos]
  · intro i j hi hj
    simp only [Factor.product, factor_product, List.foldl_cons, List.foldl_nil,
      bivar_factor_operation_M, hfilter, if_pos]
    exact flatMap_mul_getD φ1.values φ2.values i j hi hj

/-- Left operand for the disjoint-scope witness. -/
def g1C : Factor :=
  ⟨["a"], [2], [2, 3]⟩

/-- Right operand for the disjoint-scope witness. -/
def g2C : Factor :=
  ⟨["b"], [2], [5, 7]⟩

/-- Witness for C6 at a concrete disjoint pair, with the outer-product
cell property instantiated at cell (0, 1). -/
theorem disjoint_divide_product_witness :
    (∀ v ∈ g1C.vars, v ∉ g2C.vars) ∧
    g1C.divide g2C =
      .error "factors Division not defined for factors with no common scope" ∧
    (g1C.product g2C).vars = g1C.vars ++ g2C.vars ∧
    (g1C.product g2C).cardinality = g1C.cardinality ++ g2C.cardinality ∧
    (g1C.product g2C).values.getD (0 * g2C.values.length + 1) 0
      = g1C.values.getD 0 0 * g2C.values.getD 1 0 :=
  ⟨by decide,
   (disjoint_divide_product g1C g2C (by decide)).1,
   (disjoint_divide_product g1C g2C (by decide)).2.1,
   (disjoint_divide_product g1C g2C (by decide)).2.2.1,
   (disjoint_divide_product g1C g2C (by decide)).2.2.2 0 1 (by decide) (by decide)⟩

/-- Claim C7: on the factor over `(x1,x2,x3)` with cardinalities `(2,3,2)`
and values `0..11`, `reduce(['x1_0','x2_0'])` fixes `x1` to state 0 and
`x2` to state 0, removing both from scope, and leaves the factor over
scope `(x3)` with cardinality `[2]` and values `[0, 1]`. -/
theorem scenarioC_reduce :
    phiB.reduce ["x1_0", "x2_0"] = .ok ⟨["x3"], [2], [0, 1]⟩ := by
  with_unfolding_all rfl

/-- Claim C8: for every factor and every argument, the copy mode
(`inplace=False`) of `marginalize`, `reduce` and `normalize` leaves the
receiver unchanged, raises exactly when the in-place mode raises, and (on
success) returns exactly the factor that the in-place mode would have made
the receiver; `normalize` never raises. -/
theorem axis_modes_duality (φ : Factor) (variablesArg tokens : List String) :
    (marginalizeCall φ variablesArg false).receiver = φ ∧
    (reduceCall φ tokens false).receiver = φ ∧
    (normalizeCall φ false).receiver = φ ∧
    (marginalizeCall φ variablesArg false).err
      = (marginalizeCall φ variablesArg true).err ∧
    (reduceCall φ tokens false).err = (reduceCall φ tokens true).err ∧
    (normalizeCall φ false).err = none ∧ (normalizeCall φ true).err = none ∧
    (marginalizeCall φ variablesArg false).ret =
      (if (marginalizeCall φ variablesArg true).err = none
       then some ((marginalizeCall φ variablesArg true).receiver) else none) ∧
    (reduceCall φ tokens false).ret =
      (if (reduceCall φ tokens true).err = none
       then some ((reduceCall φ tokens true).receiver) else none) ∧
    (normalizeCall φ false).ret = some ((normalizeCall φ true).receiver) := by
  unfold marginalizeCall reduceCall normalizeCall
  cases φ.marginalize variablesArg <;> cases φ.reduce tokens <;> simp

/-- Claim C9: when any requested variable is absent from the scope,
in-place `marginalize` raises the unknown-variable `ScopeError` (naming
the first offending variable), returns nothing, and — because the
validation loop runs before any elimination — leaves the receiver's
scope, cardinalities and buffer exactly as they were. -/
theorem marginalize_unknown_variable (φ : Factor) (variablesArg : List String)
    (h : ∃ v ∈ variablesArg, v ∉ φ.vars) :
    (marginalizeCall φ variablesArg true).receiver = φ ∧
    (marginalizeCall φ variablesArg true).ret = none ∧
    (marginalizeCall φ variablesArg true).err =
      some ((variablesArg.find? (fun x => !(φ.vars.contains x))).getD ""
        ++ " not in scope") := by
  obtain ⟨v, hv, hnm⟩ := h
  have hsome : (variablesArg.find? (fun x => !(φ.vars.contains x))).isSome := by
    rw [List.find?_isSome]
    exact ⟨v, hv, by simpa [List.contains, List.elem_eq_mem] using hnm⟩
  obtain ⟨w, hw⟩ := Option.isSome_iff_exists.mp hsome
  unfold marginalizeCall Factor.marginalize
  rw [hw]
  simp

/-- Witness for C9: `['x1', 'zz']` on the scenario factor, where `x1` is
valid but `zz` is not in scope. -/
theorem marginalize_unknown_variable_witness :
    (marginalizeCall phiB ["x1", "zz"] true).receiver = phiB ∧
    (marginalizeCall phiB ["x1", "zz"] true).ret = none ∧
    (marginalizeCall phiB ["x1", "zz"] true).err =
      some ((["x1", "zz"].find? (fun x => !(phiB.vars.contains x))).getD ""
        ++ " not in scope") :=
  marginalize_unknown_variable phiB ["x1", "zz"] (by decide)

/-- Claim C10: in-place `reduce` applies tokens one at a time, so on
`['x1_0', 'x9_0']` (first token valid, second naming a variable not in
scope) the call raises the `ScopeError` while the receiver already
retains the first reduction: `x1` is removed from scope, its cardinality
entry deleted, and the buffer sliced to `[0..5]`. -/
theorem reduce_partial_mutation_on_error :
    reduceCall phiB ["x1_0", "x9_0"] true =
      ⟨⟨["x2", "x3"], [3, 2], [0, 1, 2, 3, 4, 5]⟩, none, some "x9 not in scope"⟩ := by
  with_unfolding_all rfl

end PgmpyFactor
